import Mathlib

/-!
Verification of the tarssh metrics registry (`src/metrics.rs`) and the
listener admission check (`src/main.rs`), shallowly embedded in Lean.

Modelling conventions:
* instants (`std::time::Instant`) are natural numbers of seconds since an
  arbitrary epoch; `start.elapsed().as_secs()` at time `now` is `now - start`;
* `u64` and `usize` values are natural numbers; atomic `fetch_add` /
  `fetch_sub` pairs become plain increments and decrements (the claims under
  study never approach the wrap-around at `2 ^ 64`); the one place where
  machine-width wrap-around is observable and decisive — the histogram bucket
  expression `63 - connection_time.leading_zeros() as usize` — is modelled
  with an explicit `% 2 ^ 64`;
* a Rust panic (the out-of-bounds index into the 32-entry histogram array
  produced by that expression for a duration of `0` or of at least `2 ^ 32`
  seconds) is modelled as `Option.none`;
* `Result` becomes `Except`, `Mutex` contents are plain fields (the embedding
  is the sequential semantics of the lock-serialised operations).
-/

namespace Tarssh

/-- The value `u64::MAX`, the sentinel used for an empty population's minimum. -/
def UMAX : Nat := 2 ^ 64 - 1

/-- The `Client` struct of `src/metrics.rs`: one live connection's record. -/
structure Client where
  start : Nat
  sent_chunks : Nat
  sent_eastereggs : Nat
  sent_banners : Nat
deriving DecidableEq

/-- The `ClientMetrics` struct of `src/metrics.rs`: an aggregate over a
population of connections.  `connection_time_till` is the 32-entry histogram
array. -/
structure ClientMetrics where
  maximum_connection_time : Nat
  minimum_connection_time : Nat
  connection_time_till : List Nat
  connection_time : Nat
  sent_chunks_sum : Nat
  sent_eastereggs_sum : Nat
  sent_banners_sum : Nat
deriving DecidableEq, Inhabited

/-- Constructor `ClientMetrics::new`. -/
def ClientMetrics.new : ClientMetrics :=
  { maximum_connection_time := 0
    minimum_connection_time := UMAX
    connection_time_till := List.replicate 32 0
    connection_time := 0
    sent_chunks_sum := 0
    sent_eastereggs_sum := 0
    sent_banners_sum := 0 }

/-- The `Metrics` struct of `src/metrics.rs`: the process-wide registry. -/
structure Metrics where
  startup : Nat
  clients : List (Option Client)
  former_metrics : ClientMetrics
  connections_count : Nat
  connections_total : Nat
deriving DecidableEq

/-- Constructor `Metrics::new`. -/
def Metrics.new (startup : Nat) : Metrics :=
  { startup := startup
    clients := []
    former_metrics := ClientMetrics.new
    connections_count := 0
    connections_total := 0 }

/-- The `Token` struct of `src/metrics.rs`: an opaque slot index. -/
structure Token where
  uid : Nat
deriving DecidableEq

/-- The slot search of `Metrics::connect`: the index of the first `None`
hole in the table, translated from
`iter().enumerate().find_map(...is_none...)`. -/
def firstFree : List (Option Client) → Option Nat
  | [] => none
  | none :: _ => some 0
  | some _ :: rest => (firstFree rest).map (fun i => i + 1)

/-- Operation `Metrics::connect`.  Returns the result together with the updated
registry.  The `fetch_add` / conditional `fetch_sub` pair on
`connections_count` is rendered by its net effect: unchanged on the reject
path, incremented on the accept path. -/
def Metrics.connect (m : Metrics) (max_clients : Nat) (start : Nat) :
    Except Nat (Nat × Token) × Metrics :=
  let total := m.connections_total + 1
  let connected := m.connections_count + 1
  if connected > max_clients then
    (Except.error connected, { m with connections_total := total })
  else
    let client : Client :=
      { start := start, sent_chunks := 0, sent_eastereggs := 0, sent_banners := 0 }
    match firstFree m.clients with
    | some index =>
        (Except.ok (connected, { uid := index }),
          { m with
              connections_total := total
              connections_count := connected
              clients := m.clients.set index (some client) })
    | none =>
        (Except.ok (connected, { uid := m.clients.length }),
          { m with
              connections_total := total
              connections_count := connected
              clients := m.clients ++ [some client] })

/-- Binary digit count of `n`, computed by `fuel` halvings; equals the
position of the highest set bit plus one whenever `0 < n < 2 ^ fuel`. -/
def bitLen : Nat → Nat → Nat
  | 0, _ => 0
  | fuel + 1, n => if n = 0 then 0 else bitLen fuel (n / 2) + 1

/-- Function `u64::leading_zeros`: 64 minus the bit length, for arguments below
`2 ^ 64`; in particular `64` at zero. -/
def leadingZeros64 (n : Nat) : Nat := 64 - bitLen 64 n

/-- The bucket expression `63 - connection_time.leading_zeros() as usize`
from `Metrics::disconnect` and the fold in `Metrics::export`, with the
`usize` subtraction wrapping modulo `2 ^ 64` (release-profile semantics).
For a duration of `0` the result is `2 ^ 64 - 1`, far outside the 32-entry
histogram array. -/
def bucketOf (connection_time : Nat) : Nat :=
  (63 + 2 ^ 64 - leadingZeros64 connection_time) % 2 ^ 64

/-- The shared accumulation step of `Metrics::disconnect` (lines 165-172)
and the fold inside `Metrics::export` (lines 194-202): fold one connection
of duration `connection_time` with the given sent counters into an
aggregate.  `none` models the panic of the out-of-bounds histogram index. -/
def ClientMetrics.accumulate (metrics : ClientMetrics) (connection_time : Nat)
    (chunks eggs banners : Nat) : Option ClientMetrics :=
  let bucket := bucketOf connection_time
  if bucket < 32 then
    some
      { maximum_connection_time := max metrics.maximum_connection_time connection_time
        minimum_connection_time := min metrics.minimum_connection_time connection_time
        connection_time_till :=
          metrics.connection_time_till.set bucket
            (metrics.connection_time_till.getD bucket 0 + 1)
        connection_time := metrics.connection_time + connection_time
        sent_chunks_sum := metrics.sent_chunks_sum + chunks
        sent_eastereggs_sum := metrics.sent_eastereggs_sum + eggs
        sent_banners_sum := metrics.sent_banners_sum + banners }
  else
    none

/-- Operation `Metrics::disconnect` at wall-clock time `now`.  The outer `Option` is
`none` exactly when the histogram indexing panics. -/
def Metrics.disconnect (m : Metrics) (token : Token) (now : Nat) :
    Option (Except String (Nat × Nat) × Metrics) :=
  if token.uid < m.clients.length then
    match m.clients.getD token.uid none with
    | some client =>
        let connected := m.connections_count
        let connection_time := now - client.start
        match m.former_metrics.accumulate connection_time
            client.sent_chunks client.sent_eastereggs client.sent_banners with
        | some fm =>
            some (Except.ok (connected - 1, connection_time),
              { m with
                  connections_count := m.connections_count - 1
                  former_metrics := fm
                  clients := m.clients.set token.uid none })
        | none => none
    | none => some (Except.error ("Already Disconnected"), m)
  else
    some (Except.error ("Invalid Token"), m)

/-- Helper `Metrics::in_client`: run an action on the occupied slot a token names,
validating the token first. -/
def Metrics.in_client (m : Metrics) (token : Token) (action : Client → Client) :
    Except String Unit × Metrics :=
  if token.uid < m.clients.length then
    match m.clients.getD token.uid none with
    | some entry =>
        (Except.ok (), { m with clients := m.clients.set token.uid (some (action entry)) })
    | none => (Except.error ("Already Disconnected"), m)
  else
    (Except.error ("Invalid Token"), m)

/-- Operation `Metrics::sent_chunk`. -/
def Metrics.sent_chunk (m : Metrics) (token : Token) : Except String Unit × Metrics :=
  m.in_client token (fun client => { client with sent_chunks := client.sent_chunks + 1 })

/-- Operation `Metrics::sent_easteregg`. -/
def Metrics.sent_easteregg (m : Metrics) (token : Token) : Except String Unit × Metrics :=
  m.in_client token (fun client => { client with sent_eastereggs := client.sent_eastereggs + 1 })

/-- Operation `Metrics::sent_banner`. -/
def Metrics.sent_banner (m : Metrics) (token : Token) : Except String Unit × Metrics :=
  m.in_client token (fun client => { client with sent_banners := client.sent_banners + 1 })

/-- One step of the fold in `Metrics::export` over the slot table: an
occupied slot is accumulated with its elapsed time computed at `now`, an
empty slot is skipped. -/
def foldClient (now : Nat) (metrics : ClientMetrics) : Option Client → Option ClientMetrics
  | some client =>
      metrics.accumulate (now - client.start)
        client.sent_chunks client.sent_eastereggs client.sent_banners
  | none => some metrics

/-- The fresh aggregate `Metrics::export` folds over all currently-occupied
slots at call time. -/
def liveFold (clients : List (Option Client)) (now : Nat) : Option ClientMetrics :=
  clients.foldlM (foldClient now) ClientMetrics.new

/-- The numeric values `Metrics::export` interpolates into its fixed text
template: uptime, the two counters, the live aggregate, the former
aggregate, and the derived total fields. -/
structure ExportData where
  uptime_seconds : Nat
  connections_count : Nat
  connections_total : Nat
  client : ClientMetrics
  former : ClientMetrics
  total_maximum_connection_time : Nat
  total_minimum_connection_time : Nat
  total_sent_chunks_sum : Nat
  total_sent_eastereggs_sum : Nat
  total_sent_banners_sum : Nat
  total_connection_time_sum : Nat
  total_connection_time_till : List Nat
deriving DecidableEq, Inhabited

/-- Operation `Metrics::export` at wall-clock time `now`, as the tuple of interpolated
values.  `total_minimum_connection_time` is
`client.minimum_connection_time.min(former.maximum_connection_time)`,
exactly as in the source.  `none` models the panic of the histogram
indexing inside the live fold. -/
def Metrics.exportData (m : Metrics) (now : Nat) : Option ExportData :=
  (liveFold m.clients now).map (fun client_metrics =>
    { uptime_seconds := now - m.startup
      connections_count := m.connections_count
      connections_total := m.connections_total
      client := client_metrics
      former := m.former_metrics
      total_maximum_connection_time :=
        max client_metrics.maximum_connection_time m.former_metrics.maximum_connection_time
      total_minimum_connection_time :=
        min client_metrics.minimum_connection_time m.former_metrics.maximum_connection_time
      total_sent_chunks_sum :=
        client_metrics.sent_chunks_sum + m.former_metrics.sent_chunks_sum
      total_sent_eastereggs_sum :=
        client_metrics.sent_eastereggs_sum + m.former_metrics.sent_eastereggs_sum
      total_sent_banners_sum :=
        client_metrics.sent_banners_sum + m.former_metrics.sent_banners_sum
      total_connection_time_sum :=
        client_metrics.connection_time + m.former_metrics.connection_time
      total_connection_time_till :=
        List.ofFn (fun i : Fin 32 =>
          client_metrics.connection_time_till.getD i.val 0 +
            m.former_metrics.connection_time_till.getD i.val 0) })

/-- The registry's public operations, as a single event alphabet. -/
inductive Op where
  | connect (max_clients : Nat) (start : Nat)
  | disconnect (uid : Nat) (now : Nat)
  | sent_chunk (uid : Nat)
  | sent_easteregg (uid : Nat)
  | sent_banner (uid : Nat)
  | doExport (now : Nat)
deriving DecidableEq

/-- Whether an event is a disconnect. -/
def Op.isDisconnect : Op → Bool
  | Op.disconnect _ _ => true
  | _ => false

/-- The registry state after one operation; `none` when the operation
panics. -/
def Metrics.step (m : Metrics) : Op → Option Metrics
  | Op.connect mc s => some (m.connect mc s).2
  | Op.disconnect uid now => (m.disconnect { uid := uid } now).map (fun r => r.2)
  | Op.sent_chunk uid => some (m.sent_chunk { uid := uid }).2
  | Op.sent_easteregg uid => some (m.sent_easteregg { uid := uid }).2
  | Op.sent_banner uid => some (m.sent_banner { uid := uid }).2
  | Op.doExport now => (m.exportData now).map (fun _ => m)

/-- The registry state after a sequence of operations. -/
def Metrics.run (m : Metrics) : List Op → Option Metrics
  | [] => some m
  | op :: ops =>
      match m.step op with
      | some m2 => m2.run ops
      | none => none

/-- The process state of `src/main.rs`: the static `NUM_CLIENTS` counter the
listener maintains, alongside the metrics registry. -/
structure ServerState where
  num_clients : Nat
  metrics : Metrics
deriving DecidableEq

/-- The admission filter of the listener (`src/main.rs` lines 84-95):
`fetch_add` on `NUM_CLIENTS`, compare against `max_clients`, `fetch_sub`
back and reject if over the limit.  Rendered by its net effect on
`NUM_CLIENTS`; it touches nothing else. -/
def listenerFilter (max_clients : Nat) (s : ServerState) : Bool × ServerState :=
  let connected := s.num_clients + 1
  if connected > max_clients then
    (false, s)
  else
    (true, { s with num_clients := connected })

/-- The disconnect arm of the tarpit loop (`src/main.rs` lines 115-125):
`fetch_sub` on `NUM_CLIENTS`. -/
def tarpitDisconnect (s : ServerState) : ServerState :=
  { s with num_clients := s.num_clients - 1 }

/-- The registry state used by the error-path witness: slot `0` has been
disconnected, slot `1` is still occupied. -/
def errorWitnessState : Metrics :=
  ((Metrics.new 0).run
    [Op.connect 9 0, Op.connect 9 0, Op.disconnect 0 1]).getD (Metrics.new 0)


/-- The operation sequence of the spec's aggregate-correctness test:
four clients, disconnected after 0, 1, 3 and 1000 seconds. -/
def histogramOps : List Op :=
  [Op.connect 10 0, Op.connect 10 0, Op.connect 10 0, Op.connect 10 0,
   Op.disconnect 0 0, Op.disconnect 1 1, Op.disconnect 2 3, Op.disconnect 3 1000]


/-- The same test with the zero-duration client removed. -/
def histogramOpsAmended : List Op :=
  [Op.connect 10 0, Op.connect 10 0, Op.connect 10 0,
   Op.disconnect 0 1, Op.disconnect 1 3, Op.disconnect 2 1000]


/-- The registry state exposing the total-minimum slip: former clients of
durations `2` and `10` seconds, no live clients. -/
def minimumWitnessState : Metrics :=
  ((Metrics.new 0).run
    [Op.connect 10 0, Op.connect 10 0, Op.disconnect 0 2, Op.disconnect 1 10]).getD
    (Metrics.new 0)


/-- The registry used by the export witnesses: one former client (duration
`5` seconds, one chunk sent) and one still-connected client (start `0`, one
chunk sent). -/
def exportWitnessState : Metrics :=
  ((Metrics.new 0).run
    [Op.connect 10 0, Op.connect 10 0, Op.sent_chunk 0, Op.sent_chunk 1,
     Op.disconnect 0 5]).getD (Metrics.new 0)


/-- The registry reached by connecting A and B and disconnecting A: slot
`0` is a hole, slot `1` is occupied. -/
def reuseState : Metrics :=
  ((Metrics.new 0).run
    [Op.connect 10 0, Op.connect 10 0, Op.disconnect 0 1]).getD (Metrics.new 0)

/-! Helper lemmas. -/

theorem firstFree_spec (l : List (Option Client)) (i : Nat) (h : firstFree l = some i) :
    l.getD i none = none ∧ ∀ j, j < i → (l.getD j none).isSome = true := by
  induction l generalizing i with
  | nil => simp [firstFree] at h
  | cons c rest ih =>
    cases c with
    | none =>
      simp [firstFree] at h
      subst h
      simp
    | some c =>
      simp only [firstFree, Option.map_eq_some'] at h
      obtain ⟨k, hk, rfl⟩ := h
      obtain ⟨h1, h2⟩ := ih k hk
      constructor
      · simpa using h1
      · intro j hj
        cases j with
        | zero => simp
        | succ j =>
          simp only [List.getD_cons_succ]
          exact h2 j (by omega)

theorem firstFree_lt_length (l : List (Option Client)) (i : Nat) (h : firstFree l = some i) :
    i < l.length := by
  induction l generalizing i with
  | nil => simp [firstFree] at h
  | cons c rest ih =>
    cases c with
    | none =>
      simp [firstFree] at h
      subst h
      simp
    | some c =>
      simp only [firstFree, Option.map_eq_some'] at h
      obtain ⟨k, hk, rfl⟩ := h
      have := ih k hk
      simp
      omega

theorem firstFree_none (l : List (Option Client)) (h : firstFree l = none) :
    ∀ j, j < l.length → (l.getD j none).isSome = true := by
  induction l with
  | nil => simp
  | cons c rest ih =>
    cases c with
    | none => simp [firstFree] at h
    | some c =>
      simp only [firstFree, Option.map_eq_none'] at h
      intro j hj
      cases j with
      | zero => simp
      | succ j =>
        simp only [List.getD_cons_succ]
        exact ih h j (by simpa using hj)

/-! The claims. -/

/-- Claim C1: `connect(max_clients, now)` always increments the lifetime total
counter, even on rejection; on rejection (incremented live count above
`max_clients`) it leaves the live counter and the slot table untouched and
returns the attempted count; on acceptance it stores a fresh record
(`start = now`, all three counters `0`) at the first free slot index
(every smaller index being occupied), appending only when no hole exists,
and returns a token naming that index. -/
theorem connect_spec (m : Metrics) (max_clients now : Nat) :
    ((m.connect max_clients now).2.connections_total = m.connections_total + 1)
    ∧ (m.connections_count + 1 > max_clients →
        (m.connect max_clients now).1 = Except.error (m.connections_count + 1)
        ∧ (m.connect max_clients now).2.connections_count = m.connections_count
        ∧ (m.connect max_clients now).2.clients = m.clients
        ∧ (m.connect max_clients now).2.former_metrics = m.former_metrics)
    ∧ (m.connections_count + 1 ≤ max_clients →
        match firstFree m.clients with
        | some index =>
            (m.connect max_clients now).1
              = Except.ok (m.connections_count + 1, { uid := index })
            ∧ (m.connect max_clients now).2.clients
              = m.clients.set index (some
                  { start := now, sent_chunks := 0, sent_eastereggs := 0, sent_banners := 0 })
            ∧ index < m.clients.length
            ∧ m.clients.getD index none = none
            ∧ (∀ j, j < index → (m.clients.getD j none).isSome = true)
            ∧ (m.connect max_clients now).2.connections_count = m.connections_count + 1
        | none =>
            (m.connect max_clients now).1
              = Except.ok (m.connections_count + 1, { uid := m.clients.length })
            ∧ (m.connect max_clients now).2.clients
              = m.clients ++ [some
                  { start := now, sent_chunks := 0, sent_eastereggs := 0, sent_banners := 0 }]
            ∧ (∀ j, j < m.clients.length → (m.clients.getD j none).isSome = true)
            ∧ (m.connect max_clients now).2.connections_count = m.connections_count + 1) := by
  refine ⟨?_, ?_, ?_⟩
  · by_cases hgt : m.connections_count + 1 > max_clients
    · simp [Metrics.connect, hgt]
    · cases hff : firstFree m.clients <;> simp [Metrics.connect, hgt, hff]
  · intro hgt
    simp [Metrics.connect, hgt]
  · intro hle
    have hgt : ¬ m.connections_count + 1 > max_clients := by omega
    cases hff : firstFree m.clients with
    | none =>
      have hall := firstFree_none m.clients hff
      simp only [Metrics.connect, hgt, if_false, hff]
      refine ⟨trivial, trivial, hall, trivial⟩
    | some index =>
      obtain ⟨h1, h2⟩ := firstFree_spec m.clients index hff
      have hlt := firstFree_lt_length m.clients index hff
      simp only [Metrics.connect, hgt, if_false, hff]
      refine ⟨trivial, trivial, hlt, h1, h2, trivial⟩

/-- Witness for `connect_spec`: a fresh registry with `max_clients = 1`
accepts the first connection, appends the single fresh slot and returns
token `0`. -/
theorem connect_spec_witness :
    ((Metrics.new 0).connect 1 5).1 = Except.ok (1, { uid := 0 })
    ∧ ((Metrics.new 0).connect 1 5).2.clients
      = [some { start := 5, sent_chunks := 0, sent_eastereggs := 0, sent_banners := 0 }]
    ∧ ((Metrics.new 0).connect 1 5).2.connections_total = 1 := by
  have h := connect_spec (Metrics.new 0) 1 5
  have h3 := h.2.2 (by decide)
  simp only [Metrics.new, firstFree] at h3
  exact ⟨h3.1, h3.2.1, h.1⟩

/-- Claim C4: for a token whose index was never allocated (at or past the
table length), `disconnect` and each of the three record-event operations
return the `Invalid Token` error; for a token naming a currently-empty
slot they return the `Already Disconnected` error; in both cases the
registry — slot table, former aggregate and both counters — is returned
entirely unchanged. -/
theorem token_errors_no_mutation (m : Metrics) (uid now : Nat) :
    (m.clients.length ≤ uid →
        m.disconnect { uid := uid } now = some (Except.error ("Invalid Token"), m)
        ∧ m.sent_chunk { uid := uid } = (Except.error ("Invalid Token"), m)
        ∧ m.sent_easteregg { uid := uid } = (Except.error ("Invalid Token"), m)
        ∧ m.sent_banner { uid := uid } = (Except.error ("Invalid Token"), m))
    ∧ (uid < m.clients.length → m.clients.getD uid none = none →
        m.disconnect { uid := uid } now = some (Except.error ("Already Disconnected"), m)
        ∧ m.sent_chunk { uid := uid } = (Except.error ("Already Disconnected"), m)
        ∧ m.sent_easteregg { uid := uid } = (Except.error ("Already Disconnected"), m)
        ∧ m.sent_banner { uid := uid } = (Except.error ("Already Disconnected"), m)) := by
  constructor
  · intro hlen
    have hnot : ¬ uid < m.clients.length := by omega
    simp [Metrics.disconnect, Metrics.sent_chunk, Metrics.sent_easteregg,
      Metrics.sent_banner, Metrics.in_client, hnot]
  · intro hlt hempty
    have hval : m.clients[uid] = none := by
      have hsome := List.getElem?_eq_getElem hlt
      simpa [List.getD_eq_getElem?_getD, hsome] using hempty
    simp [Metrics.disconnect, Metrics.sent_chunk, Metrics.sent_easteregg,
      Metrics.sent_banner, Metrics.in_client, hlt, hval]

/-- Witness for `token_errors_no_mutation`: token `5` was never issued,
token `0` names an emptied slot. -/
theorem token_errors_no_mutation_witness :
    errorWitnessState.disconnect { uid := 5 } 7
      = some (Except.error ("Invalid Token"), errorWitnessState)
    ∧ errorWitnessState.sent_chunk { uid := 0 }
      = (Except.error ("Already Disconnected"), errorWitnessState) := by
  have h := token_errors_no_mutation errorWitnessState 5 7
  have h0 := token_errors_no_mutation errorWitnessState 0 7
  exact ⟨(h.1 (by decide)).1, (h0.2 (by decide) (by decide)).2.1⟩

/-- Claim C3, code bug: the histogram bucket computation is *not* special-cased at zero:
for a connection of duration exactly `0` seconds the expression
`63 - connection_time.leading_zeros() as usize` wraps to `2 ^ 64 - 1`,
which is out of range for the 32-entry histogram array, so the indexing
panics — modelled as `none` — in both `disconnect` and the live fold of
`export`. -/
theorem zero_duration_bucket_panics :
    bucketOf 0 = 2 ^ 64 - 1
    ∧ ¬ bucketOf 0 < 32
    ∧ ((Metrics.new 0).connect 1 5).2.disconnect { uid := 0 } 5 = none
    ∧ ((Metrics.new 0).connect 1 5).2.exportData 5 = none := by
  refine ⟨by decide, by decide, rfl, rfl⟩

/-- Claim C2, counterexample: disconnecting the four clients with durations
`[0, 1, 3, 1000]` does not leave one count in each of buckets 0, 1, 2 and 9:
the very first of those disconnects (duration `0`) panics in the bucket
computation, so the run aborts and the claimed histogram state is never
reached. -/
theorem histogram_claim_counterexample :
    (Metrics.new 0).run histogramOps = none
    ∧ ¬ ((Metrics.new 0).run histogramOps).elim False (fun m =>
          m.former_metrics.connection_time_till
            = ((((List.replicate 32 0).set 0 1).set 1 1).set 2 1).set 9 1
          ∧ m.former_metrics.connection_time = 1004) := by
  refine ⟨rfl, ?_⟩
  intro h
  rw [show (Metrics.new 0).run histogramOps = none from rfl] at h
  exact h

/-- Claim C2, amended: a duration-0 disconnect panics in the bucket
computation, so that client can never be folded in; for the remaining
durations `[1, 3, 1000]` the code's bucket rule is the position of the
highest set bit, so the former histogram ends with one count in each of
buckets 0, 1 and 9, and the former connection-time sum is `1004`. -/
theorem histogram_amended :
    ((Metrics.new 0).run histogramOpsAmended).map (fun m =>
        (m.former_metrics.connection_time_till, m.former_metrics.connection_time))
      = some ((((List.replicate 32 0).set 0 1).set 1 1).set 9 1, 1004) := by
  rfl

/-- Claim C5, counterexample: the listener's admission check does not consult
or update the Metrics registry's live counter: accepting one connection
through the admission filter raises `NUM_CLIENTS` to `1` while the
registry's `connections_count` stays `0` — two counters, not one. -/
theorem admission_counter_counterexample :
    (listenerFilter 5 { num_clients := 0, metrics := Metrics.new 0 }).2.num_clients = 1
    ∧ (listenerFilter 5 { num_clients := 0, metrics := Metrics.new 0 }).1 = true
    ∧ ¬ (listenerFilter 5 { num_clients := 0, metrics := Metrics.new 0 }).2.metrics.connections_count
        = (listenerFilter 5 { num_clients := 0, metrics := Metrics.new 0 }).2.num_clients := by
  refine ⟨rfl, rfl, by decide⟩

/-- Claim C5, amended: the admission check in the listener consults and
updates only the static `NUM_CLIENTS` counter; neither the admission filter
nor the listener's disconnect arm touches the Metrics registry, whose live
counter is a second, separately-incremented counter that can drift from
`NUM_CLIENTS`. -/
theorem admission_uses_separate_counter (max_clients : Nat) (s : ServerState) :
    (listenerFilter max_clients s).2.metrics = s.metrics
    ∧ (tarpitDisconnect s).metrics = s.metrics
    ∧ (listenerFilter max_clients s).2.num_clients
        = (if s.num_clients + 1 > max_clients then s.num_clients else s.num_clients + 1) := by
  refine ⟨?_, rfl, ?_⟩ <;>
    · by_cases h : s.num_clients + 1 > max_clients <;> simp [listenerFilter, h]

/-- Claim C7, code bug: the exported total minimum connection time is *not* the minimum
of the former minimum and the live minimum: the source combines the live
minimum with the former *maximum*.  With former durations `2` and `10` and
no live clients, the export carries `total_minimum = 10`, while the minimum
of the former minimum (`2`) and the live minimum (`u64::MAX`) is `2`. -/
theorem export_total_minimum_uses_former_maximum :
    (minimumWitnessState.exportData 11).map
        (fun e => e.total_minimum_connection_time) = some 10
    ∧ (minimumWitnessState.exportData 11).map
        (fun e => min e.former.minimum_connection_time e.client.minimum_connection_time)
      = some 2
    ∧ (minimumWitnessState.exportData 11).map
        (fun e => e.former.maximum_connection_time) = some 10 := by
  refine ⟨by decide, by decide, by decide⟩

/-! Frame lemmas for the operation alphabet. -/

theorem in_client_frame (m : Metrics) (t : Token) (f : Client → Client) :
    (m.in_client t f).2.former_metrics = m.former_metrics
    ∧ (m.in_client t f).2.connections_count = m.connections_count
    ∧ (m.in_client t f).2.connections_total = m.connections_total
    ∧ (m.in_client t f).2.clients.length = m.clients.length := by
  unfold Metrics.in_client
  by_cases hl : t.uid < m.clients.length
  · simp only [hl, if_true]
    cases hc : m.clients.getD t.uid none <;> simp [hc]
  · simp [hl]

theorem disconnect_clients_length (m : Metrics) (t : Token) (now : Nat)
    (r : Except String (Nat × Nat) × Metrics) (h : m.disconnect t now = some r) :
    r.2.clients.length = m.clients.length := by
  unfold Metrics.disconnect at h
  split at h
  · split at h
    · simp only [] at h
      split at h
      · injection h with h
        subst h
        simp
      · exact absurd h (by simp)
    · injection h with h
      subst h
      rfl
  · injection h with h
    subst h
    rfl

theorem connect_clients_length (m : Metrics) (mc s : Nat) :
    m.clients.length ≤ (m.connect mc s).2.clients.length := by
  by_cases hgt : m.connections_count + 1 > mc
  · simp [Metrics.connect, hgt]
  · cases hff : firstFree m.clients <;> simp [Metrics.connect, hgt, hff]

theorem step_length_le (m m' : Metrics) (op : Op) (h : m.step op = some m') :
    m.clients.length ≤ m'.clients.length := by
  cases op with
  | connect mc s =>
    simp only [Metrics.step, Option.some_inj] at h
    subst h
    exact connect_clients_length m mc s
  | disconnect uid now =>
    simp only [Metrics.step] at h
    cases hd : m.disconnect { uid := uid } now with
    | none => rw [hd] at h; simp at h
    | some r =>
      rw [hd] at h
      simp only [Option.map_some', Option.some_inj] at h
      subst h
      exact Nat.le_of_eq (disconnect_clients_length m { uid := uid } now r hd).symm
  | sent_chunk uid =>
    simp only [Metrics.step, Option.some_inj] at h
    subst h
    exact Nat.le_of_eq (in_client_frame m { uid := uid } _).2.2.2.symm
  | sent_easteregg uid =>
    simp only [Metrics.step, Option.some_inj] at h
    subst h
    exact Nat.le_of_eq (in_client_frame m { uid := uid } _).2.2.2.symm
  | sent_banner uid =>
    simp only [Metrics.step, Option.some_inj] at h
    subst h
    exact Nat.le_of_eq (in_client_frame m { uid := uid } _).2.2.2.symm
  | doExport now =>
    simp only [Metrics.step] at h
    cases he : m.exportData now with
    | none => rw [he] at h; simp at h
    | some e =>
      rw [he] at h
      simp only [Option.map_some', Option.some_inj] at h
      subst h
      exact Nat.le_refl _

theorem run_length_le (ops : List Op) (m m' : Metrics) (h : m.run ops = some m') :
    m.clients.length ≤ m'.clients.length := by
  induction ops generalizing m with
  | nil =>
    simp only [Metrics.run, Option.some_inj] at h
    subst h
    exact Nat.le_refl _
  | cons op ops ih =>
    simp only [Metrics.run] at h
    cases hs : m.step op with
    | none => rw [hs] at h; simp at h
    | some m2 =>
      rw [hs] at h
      exact Nat.le_trans (step_length_le m m2 op hs) (ih m2 h)

theorem connect_preserves_former (m : Metrics) (mc s : Nat) :
    (m.connect mc s).2.former_metrics = m.former_metrics := by
  by_cases hgt : m.connections_count + 1 > mc
  · simp [Metrics.connect, hgt]
  · cases hff : firstFree m.clients <;> simp [Metrics.connect, hgt, hff]

theorem step_preserves_former (m m' : Metrics) (op : Op)
    (hop : op.isDisconnect = false) (h : m.step op = some m') :
    m'.former_metrics = m.former_metrics := by
  cases op with
  | disconnect uid now => simp [Op.isDisconnect] at hop
  | connect mc s =>
    simp only [Metrics.step, Option.some_inj] at h
    subst h
    exact connect_preserves_former m mc s
  | sent_chunk uid =>
    simp only [Metrics.step, Option.some_inj] at h
    subst h
    exact (in_client_frame m { uid := uid } _).1
  | sent_easteregg uid =>
    simp only [Metrics.step, Option.some_inj] at h
    subst h
    exact (in_client_frame m { uid := uid } _).1
  | sent_banner uid =>
    simp only [Metrics.step, Option.some_inj] at h
    subst h
    exact (in_client_frame m { uid := uid } _).1
  | doExport now =>
    simp only [Metrics.step] at h
    cases he : m.exportData now with
    | none => rw [he] at h; simp at h
    | some e =>
      rw [he] at h
      simp only [Option.map_some', Option.some_inj] at h
      subst h
      rfl

theorem run_preserves_former (ops : List Op) (m m' : Metrics)
    (hops : ∀ op, op ∈ ops → op.isDisconnect = false) (h : m.run ops = some m') :
    m'.former_metrics = m.former_metrics := by
  induction ops generalizing m with
  | nil =>
    simp only [Metrics.run, Option.some_inj] at h
    subst h
    rfl
  | cons op ops ih =>
    simp only [Metrics.run] at h
    cases hs : m.step op with
    | none => rw [hs] at h; simp at h
    | some m2 =>
      rw [hs] at h
      have h1 := step_preserves_former m m2 op (hops op (by simp)) hs
      have h2 := ih m2 (fun o ho => hops o (by simp [ho])) h
      rw [h2, h1]

theorem liveFold_all_none (l : List (Option Client)) (now : Nat) (a : ClientMetrics)
    (h : ∀ c, c ∈ l → c = none) : l.foldlM (foldClient now) a = some a := by
  induction l with
  | nil => rfl
  | cons c rest ih =>
    have hc : c = none := h c (by simp)
    subst hc
    rw [List.foldlM_cons]
    simp only [foldClient, Option.some_bind]
    exact ih (fun c hc => h c (by simp [hc]))

/-- Claim C6: for every registry state whose export succeeds, the exported
total sums equal former plus live: the sent-chunks, sent-easter-eggs,
sent-banners and connection-time total sums are each the former-clients sum
plus the live sum computed by the export-time fold, and the exported total
maximum connection time is the maximum of the former maximum and the live
maximum. -/
theorem export_total_consistency (m : Metrics) (now : Nat) (e : ExportData)
    (h : m.exportData now = some e) :
    liveFold m.clients now = some e.client
    ∧ e.former = m.former_metrics
    ∧ e.total_sent_chunks_sum = e.former.sent_chunks_sum + e.client.sent_chunks_sum
    ∧ e.total_sent_eastereggs_sum = e.former.sent_eastereggs_sum + e.client.sent_eastereggs_sum
    ∧ e.total_sent_banners_sum = e.former.sent_banners_sum + e.client.sent_banners_sum
    ∧ e.total_connection_time_sum = e.former.connection_time + e.client.connection_time
    ∧ e.total_maximum_connection_time
        = max e.former.maximum_connection_time e.client.maximum_connection_time := by
  unfold Metrics.exportData at h
  cases hL : liveFold m.clients now with
  | none => rw [hL] at h; simp at h
  | some cm =>
    rw [hL] at h
    simp only [Option.map_some', Option.some_inj] at h
    subst h
    exact ⟨rfl, rfl, Nat.add_comm _ _, Nat.add_comm _ _, Nat.add_comm _ _,
      Nat.add_comm _ _, Nat.max_comm _ _⟩

/-- Witness for `export_total_consistency` at a concrete mixed state. -/
theorem export_total_consistency_witness :
    exportWitnessState.exportData 7
      = some ((exportWitnessState.exportData 7).getD default)
    ∧ ((exportWitnessState.exportData 7).getD default).total_sent_chunks_sum
      = ((exportWitnessState.exportData 7).getD default).former.sent_chunks_sum
        + ((exportWitnessState.exportData 7).getD default).client.sent_chunks_sum
    ∧ ((exportWitnessState.exportData 7).getD default).total_sent_chunks_sum = 2 := by
  have h : exportWitnessState.exportData 7
      = some ((exportWitnessState.exportData 7).getD default) := by rfl
  refine ⟨h, (export_total_consistency exportWitnessState 7 _ h).2.2.1, by rfl⟩

/-- Claim C8: the slot table's length never decreases under any sequence of
connect, disconnect, record-event and export operations; and after
connecting A then B and disconnecting A, the next successful connect
returns A's index `0` — reusing the hole — and leaves the table length at
`2`. -/
theorem slot_table_monotone_and_reuse :
    (∀ (ops : List Op) (m m' : Metrics), m.run ops = some m' →
        m.clients.length ≤ m'.clients.length)
    ∧ reuseState.clients.length = 2
    ∧ (reuseState.connect 10 2).1 = Except.ok (2, { uid := 0 })
    ∧ (reuseState.connect 10 2).2.clients.length = 2 := by
  exact ⟨run_length_le, by rfl, by rfl, by rfl⟩

/-- Witness for `slot_table_monotone_and_reuse`: one concrete run of its
universally-quantified monotonicity part. -/
theorem slot_table_monotone_and_reuse_witness :
    (Metrics.new 0).clients.length ≤ ((Metrics.new 0).connect 1 0).2.clients.length :=
  slot_table_monotone_and_reuse.1 [Op.connect 1 0] (Metrics.new 0)
    ((Metrics.new 0).connect 1 0).2 rfl

theorem foldlM_sent_sums (l : List (Option Client)) (t1 t2 : Nat)
    (a1 a2 r1 r2 : ClientMetrics)
    (h1 : l.foldlM (foldClient t1) a1 = some r1)
    (h2 : l.foldlM (foldClient t2) a2 = some r2)
    (hc : a1.sent_chunks_sum = a2.sent_chunks_sum)
    (he : a1.sent_eastereggs_sum = a2.sent_eastereggs_sum)
    (hb : a1.sent_banners_sum = a2.sent_banners_sum) :
    r1.sent_chunks_sum = r2.sent_chunks_sum
    ∧ r1.sent_eastereggs_sum = r2.sent_eastereggs_sum
    ∧ r1.sent_banners_sum = r2.sent_banners_sum := by
  induction l generalizing a1 a2 with
  | nil =>
    simp only [List.foldlM_nil, Option.pure_def, Option.some_inj] at h1 h2
    subst h1
    subst h2
    exact ⟨hc, he, hb⟩
  | cons c rest ih =>
    cases c with
    | none =>
      rw [List.foldlM_cons] at h1 h2
      simp only [foldClient, Option.some_bind] at h1 h2
      exact ih a1 a2 h1 h2 hc he hb
    | some client =>
      rw [List.foldlM_cons] at h1 h2
      simp only [foldClient, ClientMetrics.accumulate] at h1 h2
      split at h1
      · split at h2
        · refine ih _ _ h1 h2 ?_ ?_ ?_
          · show a1.sent_chunks_sum + client.sent_chunks
              = a2.sent_chunks_sum + client.sent_chunks
            rw [hc]
          · show a1.sent_eastereggs_sum + client.sent_eastereggs
              = a2.sent_eastereggs_sum + client.sent_eastereggs
            rw [he]
          · show a1.sent_banners_sum + client.sent_banners
              = a2.sent_banners_sum + client.sent_banners
            rw [hb]
        · exact absurd h2 (by simp)
      · exact absurd h1 (by simp)

/-- Claim C9: `export` mutates no registry state — as an operation it returns
the registry exactly as it was — and two exports of the same state at
different instants agree on every field that does not depend on the live
connections' elapsed durations: the two counters, the whole former
aggregate, the live sent-chunk/easter-egg/banner sums, and the total
sent-chunk/easter-egg/banner sums. -/
theorem export_pure_and_stable :
    (∀ (m : Metrics) (now : Nat) (m' : Metrics),
        m.step (Op.doExport now) = some m' → m' = m)
    ∧ (∀ (m : Metrics) (t1 t2 : Nat) (e1 e2 : ExportData),
        m.exportData t1 = some e1 → m.exportData t2 = some e2 →
          e1.connections_count = e2.connections_count
          ∧ e1.connections_total = e2.connections_total
          ∧ e1.former = e2.former
          ∧ e1.client.sent_chunks_sum = e2.client.sent_chunks_sum
          ∧ e1.client.sent_eastereggs_sum = e2.client.sent_eastereggs_sum
          ∧ e1.client.sent_banners_sum = e2.client.sent_banners_sum
          ∧ e1.total_sent_chunks_sum = e2.total_sent_chunks_sum
          ∧ e1.total_sent_eastereggs_sum = e2.total_sent_eastereggs_sum
          ∧ e1.total_sent_banners_sum = e2.total_sent_banners_sum) := by
  constructor
  · intro m now m' h
    simp only [Metrics.step] at h
    cases he : m.exportData now with
    | none => rw [he] at h; simp at h
    | some e =>
      rw [he] at h
      simp only [Option.map_some', Option.some_inj] at h
      exact h.symm
  · intro m t1 t2 e1 e2 h1 h2
    unfold Metrics.exportData at h1 h2
    cases hL1 : liveFold m.clients t1 with
    | none => rw [hL1] at h1; simp at h1
    | some cm1 =>
      cases hL2 : liveFold m.clients t2 with
      | none => rw [hL2] at h2; simp at h2
      | some cm2 =>
        rw [hL1] at h1
        rw [hL2] at h2
        simp only [Option.map_some', Option.some_inj] at h1 h2
        subst h1
        subst h2
        obtain ⟨hc, he, hb⟩ :=
          foldlM_sent_sums m.clients t1 t2 ClientMetrics.new ClientMetrics.new cm1 cm2
            hL1 hL2 rfl rfl rfl
        exact ⟨rfl, rfl, rfl, hc, he, hb, by simp [hc], by simp [he], by simp [hb]⟩

/-- Witness for `export_pure_and_stable`: exporting a concrete mixed state
at seconds `7` and `9` yields the same sent-chunk sums, and the export
operation leaves the state unchanged. -/
theorem export_pure_and_stable_witness :
    ((exportWitnessState.exportData 7).getD default).client.sent_chunks_sum
      = ((exportWitnessState.exportData 9).getD default).client.sent_chunks_sum
    ∧ exportWitnessState = exportWitnessState := by
  have h := export_pure_and_stable.2 exportWitnessState 7 9
    ((exportWitnessState.exportData 7).getD default)
    ((exportWitnessState.exportData 9).getD default) (by rfl) (by rfl)
  have hpure := export_pure_and_stable.1 exportWitnessState 7 exportWitnessState (by rfl)
  exact ⟨h.2.2.2.1, hpure⟩

/-- Claim C10: when no slot is occupied, the export carries the live minimum
connection time as `u64::MAX` (`18446744073709551615`), the aggregate's
"infinite" initial sentinel; and any run from a fresh registry containing
no disconnect leaves the former minimum connection time at that same
sentinel. -/
theorem empty_population_minimum_sentinel :
    (∀ (m : Metrics) (now : Nat), (∀ c, c ∈ m.clients → c = none) →
        (m.exportData now).map (fun e => e.client.minimum_connection_time) = some UMAX)
    ∧ (∀ (s : Nat) (ops : List Op) (m' : Metrics),
        (∀ op, op ∈ ops → op.isDisconnect = false) →
        (Metrics.new s).run ops = some m' →
        m'.former_metrics.minimum_connection_time = UMAX)
    ∧ UMAX = 18446744073709551615 := by
  refine ⟨?_, ?_, by decide⟩
  · intro m now h
    have hfold : liveFold m.clients now = some ClientMetrics.new :=
      liveFold_all_none m.clients now ClientMetrics.new h
    simp [Metrics.exportData, hfold, ClientMetrics.new]
  · intro s ops m' hops h
    rw [run_preserves_former ops (Metrics.new s) m' hops h]
    rfl

/-- Witness for `empty_population_minimum_sentinel`: a fresh registry, and
a run consisting of one accepted connect. -/
theorem empty_population_minimum_sentinel_witness :
    ((Metrics.new 0).exportData 3).map (fun e => e.client.minimum_connection_time)
      = some UMAX
    ∧ ((Metrics.new 0).connect 1 0).2.former_metrics.minimum_connection_time = UMAX := by
  refine ⟨empty_population_minimum_sentinel.1 (Metrics.new 0) 3 (by simp [Metrics.new]),
    empty_population_minimum_sentinel.2.1 0 [Op.connect 1 0]
      ((Metrics.new 0).connect 1 0).2 (by decide) rfl⟩

end Tarssh
